import Mathlib

/-!
Verification of the `Optional` query-execution iterator combinator
(`src/redisearch_rs/rqe_iterators/src/optional.rs`) against its
natural-language specification.

The combinator `Optional` is embedded directly from the Rust source.
Its collaborators live outside the verified sources and are modelled
from the specification: the result record `RSIndexResult` (spec section 3),
the iterator-contract types `SkipToOutcome` and `RQEValidateStatus`
(spec section 4.1), and the child cursor, represented by `MockIterator`, the
canonical contract-satisfying cursor used by the repository test suite: a
finite stream of results with strictly ascending, positive document ids
(the `Empty` cursor is the empty stream).  Machine integers (`t_docId`,
frequencies, field masks) are modelled as `Nat`; the only arithmetic the
combinator performs on them is `+ 1` below the inclusive bound
`max_doc_id`, so no wrap-around can occur.  The `f64` weight is only ever
stored and compared, never computed with, so it is modelled exactly by `Rat`.
-/

set_option maxHeartbeats 4000000
set_option maxRecDepth 100000

/-- Modelled from the spec: the full field mask constant `RS_FIELDMASK_ALL`
from the FFI layer (a bitset with every field bit set; the exact width is
irrelevant to the combinator, which only stores the constant). -/
def RS_FIELDMASK_ALL : Nat := 2 ^ 128 - 1

/-- Modelled from the spec (section 3): the Result Record `RSIndexResult`
with the attributes the combinator touches: `doc_id` (0 = not yet
positioned), `weight`, `freq`, `field_mask`, and the tag distinguishing
virtual (synthesized) from real (index-backed) results. -/
structure RSIndexResult where
  doc_id : Nat
  weight : Rat
  freq : Nat
  field_mask : Nat
  is_virtual : Bool
deriving DecidableEq, Repr

/-- Modelled from the spec: `RSIndexResult::virt()`, a freshly synthesized
virtual placeholder; not yet positioned, carrying no weight. -/
def RSIndexResult.virt : RSIndexResult :=
  { doc_id := 0, weight := 0, freq := 0, field_mask := 0, is_virtual := true }

/-- Builder `RSIndexResult::frequency` used by `Optional::new`. -/
def RSIndexResult.frequency (r : RSIndexResult) (f : Nat) : RSIndexResult :=
  { r with freq := f }

/-- Builder `RSIndexResult::field_mask` used by `Optional::new`
(named `with_field_mask` here because the field projection
already uses the source name). -/
def RSIndexResult.with_field_mask (r : RSIndexResult) (m : Nat) : RSIndexResult :=
  { r with field_mask := m }

/-- Modelled from the spec (section 4.1): the outcome of `skip_to`:
`Found` when the cursor lands on a result, `NotFound` carrying the next
available result when it lands past the target. -/
inductive SkipToOutcome where
  | Found (result : RSIndexResult)
  | NotFound (result : RSIndexResult)
deriving DecidableEq, Repr

/-- Modelled from the spec (section 4.1): the outcome of `revalidate`. -/
inductive RQEValidateStatus where
  | Ok
  | Moved (current : Option RSIndexResult)
  | Aborted
deriving DecidableEq, Repr

/-- Modelled from the spec (test suite): the status a mock child is
configured to report from `revalidate`. -/
inductive MockRevalidateResult where
  | Ok
  | Move
  | Abort
deriving DecidableEq, Repr

/-- Modelled from the spec: the child cursor.  Every cursor satisfying the
Iterator Contract presents, through `read` and `skip_to`, a strictly
ascending finite stream of results; this is the repository test suite
`MockIterator` over an arbitrary stream `full`, holding the not yet
consumed suffix `remaining` and the current result slot `result`
(`doc_id = 0` meaning never positioned), plus the configured
`revalidate` behaviour. -/
structure MockIterator where
  full : List RSIndexResult
  remaining : List RSIndexResult
  result : RSIndexResult
  reval : MockRevalidateResult
deriving DecidableEq, Repr

/-- Construction of a mock child over a stream of results. -/
def MockIterator.new (docs : List RSIndexResult) (rv : MockRevalidateResult) : MockIterator :=
  { full := docs, remaining := docs, result := RSIndexResult.virt, reval := rv }

/-- Contract operation `last_doc_id`: the most recently returned position. -/
def MockIterator.last_doc_id (m : MockIterator) : Nat := m.result.doc_id

/-- Contract operation `at_eof`. -/
def MockIterator.at_eof (m : MockIterator) : Bool := m.remaining.isEmpty

/-- Contract operation `current`: nothing if never positioned. -/
def MockIterator.current (m : MockIterator) : Option RSIndexResult :=
  if m.result.doc_id = 0 then none else some m.result

/-- Contract operation `read`: move the next stream element into the
result slot and return a reference to it. -/
def MockIterator.read (m : MockIterator) : MockIterator × Option RSIndexResult :=
  match m.remaining with
  | [] => (m, none)
  | r :: rest => ({ m with remaining := rest, result := r }, some r)

/-- Contract operation `skip_to`: advance to the first stream element at
or after the target; `Found` exactly when it is at the target. -/
def MockIterator.skip_to (m : MockIterator) (t : Nat) : MockIterator × Option SkipToOutcome :=
  match m.remaining.dropWhile (fun r => r.doc_id < t) with
  | [] => ({ m with remaining := [] }, none)
  | r :: rest =>
    ({ m with remaining := rest, result := r },
     some (if r.doc_id = t then .Found r else .NotFound r))

/-- Contract operation `rewind`: back to the pre-first-read state. -/
def MockIterator.rewind (m : MockIterator) : MockIterator :=
  { m with remaining := m.full, result := RSIndexResult.virt }

/-- Contract operation `revalidate`, reporting the configured status;
a `Move` configuration makes the mock advance one position. -/
def MockIterator.revalidate (m : MockIterator) : MockIterator × RQEValidateStatus :=
  match m.reval with
  | .Ok => (m, .Ok)
  | .Abort => (m, .Aborted)
  | .Move =>
    let s := m.read
    (s.1, .Moved s.2)

/-- A write through a `&mut RSIndexResult` reference that points into the
child cursor result slot (`real.weight = self.weight` in the source). -/
def MockIterator.set_result_weight (m : MockIterator) (w : Rat) : MockIterator :=
  { m with result := { m.result with weight := w } }

/-- The `Optional` combinator state, field for field from
`rqe_iterators/src/optional.rs`. -/
structure Optional where
  max_doc_id : Nat
  weight : Rat
  result : RSIndexResult
  child : Option MockIterator
  child_result_shelved : Option Nat
deriving DecidableEq, Repr

/-- `Optional::new(max_id, weight, child)`. -/
def Optional.new (max_id : Nat) (w : Rat) (child : MockIterator) : Optional :=
  { max_doc_id := max_id, weight := w,
    result := (RSIndexResult.virt.frequency 1).with_field_mask RS_FIELDMASK_ALL,
    child := some child, child_result_shelved := none }

/-- `Optional::at_eof`: `self.result.doc_id >= self.max_doc_id`. -/
def Optional.at_eof (o : Optional) : Bool := o.max_doc_id ≤ o.result.doc_id

/-- `Optional::last_doc_id`: `self.result.doc_id`. -/
def Optional.last_doc_id (o : Optional) : Nat := o.result.doc_id

/-- `Optional::num_estimated`: `self.max_doc_id`. -/
def Optional.num_estimated (o : Optional) : Nat := o.max_doc_id

/-- `Optional::current`: the child result if the child last position
equals the combinator position, else the virtual placeholder.  The source
body performs no state write, so it is embedded as a pure observer. -/
def Optional.current (o : Optional) : Option RSIndexResult :=
  match o.child with
  | some child =>
    if child.last_doc_id = o.result.doc_id then child.current else some o.result
  | none => some o.result

/-- The closure over the child inside `Optional::read`: consume a shelved
result when the combinator has caught up to it, clear a shelf that was
skipped past, refuse to read the child when its last position is more
than one ahead, otherwise read the child.  Returns the updated child, the
updated shelf, and the child-produced result (a reference into the child
result slot) if any. -/
def Optional.read_inner (o : Optional) : Option MockIterator × Option Nat × Option RSIndexResult :=
  match o.child with
  | none => (none, o.child_result_shelved, none)
  | some child =>
    match o.child_result_shelved with
    | some at_doc_id =>
      if o.result.doc_id + 1 = at_doc_id ∧ child.last_doc_id = at_doc_id then
        (some child, none, child.current)
      else
        let shelf := if at_doc_id ≤ o.result.doc_id then none else some at_doc_id
        if o.result.doc_id + 1 < child.last_doc_id then
          (some child, shelf, none)
        else
          let s := child.read
          (some s.1, shelf, s.2)
    | none =>
      if o.result.doc_id + 1 < child.last_doc_id then
        (some child, none, none)
      else
        let s := child.read
        (some s.1, none, s.2)

/-- `Optional::read`: nothing at EOF; otherwise consult the child
(`read_inner`), advance the combinator position by exactly one, then
either return the real result with the weight applied (writing through
the reference into the child slot), demote a too-far-ahead real result by
shelving its id and returning the virtual placeholder, or return the
virtual placeholder when the child produced nothing. -/
def Optional.read (o : Optional) : Optional × Option RSIndexResult :=
  if o.at_eof then (o, none)
  else
    let t := o.read_inner
    let pos := o.result.doc_id + 1
    let o1 : Optional :=
      { o with child := t.1, child_result_shelved := t.2.1,
               result := { o.result with doc_id := pos } }
    match t.2.2 with
    | some real =>
      if pos < real.doc_id then
        ({ o1 with child_result_shelved := some real.doc_id }, some o1.result)
      else
        ({ o1 with child := o1.child.map (fun c => c.set_result_weight o1.weight) },
         some { real with weight := o1.weight })
    | none => (o1, some o1.result)

/-- `Optional::skip_to`: pin to `max_doc_id` and return nothing when the
target exceeds the bound or the combinator is at EOF; consult the child
only when the target is strictly beyond its last position; return the
weighted real result when the child lands exactly on the target, else the
virtual placeholder at the target.  The precondition of the source
(`debug_assert!(doc_id > self.result.doc_id)`) is carried as a hypothesis
by the theorems that need it. -/
def Optional.skip_to (o : Optional) (doc_id : Nat) : Optional × Option SkipToOutcome :=
  if o.max_doc_id < doc_id ∨ o.at_eof then
    ({ o with result := { o.result with doc_id := o.max_doc_id } }, none)
  else
    match o.child with
    | some child =>
      if child.last_doc_id < doc_id then
        let s := child.skip_to doc_id
        match s.2 with
        | some (.Found real) =>
          if real.doc_id = doc_id then
            ({ o with child := some (s.1.set_result_weight o.weight),
                      result := { o.result with doc_id := real.doc_id } },
             some (.Found { real with weight := o.weight }))
          else
            ({ o with child := some s.1,
                      result := { o.result with doc_id := doc_id } },
             some (.Found { o.result with doc_id := doc_id }))
        | _ =>
          ({ o with child := some s.1,
                    result := { o.result with doc_id := doc_id } },
           some (.Found { o.result with doc_id := doc_id }))
      else
        ({ o with result := { o.result with doc_id := doc_id } },
         some (.Found { o.result with doc_id := doc_id }))
    | none =>
      ({ o with result := { o.result with doc_id := doc_id } },
       some (.Found { o.result with doc_id := doc_id }))

/-- `Optional::revalidate`: delegate to the child when present; on child
abort drop the child permanently and re-read only when the current
position was backed by the child; on child move re-read only when the
current position was backed by the child. -/
def Optional.revalidate (o : Optional) : Optional × RQEValidateStatus :=
  match o.child with
  | none => (o, .Ok)
  | some child =>
    let last_child_doc_id := child.last_doc_id
    let s := child.revalidate
    match s.2 with
    | .Aborted =>
      let o1 : Optional := { o with child := none }
      if last_child_doc_id ≠ o1.result.doc_id then (o1, .Ok)
      else
        let s1 := o1.read
        (s1.1, .Moved s1.2)
    | .Ok => ({ o with child := some s.1 }, .Ok)
    | .Moved _ =>
      let o1 : Optional := { o with child := some s.1 }
      if last_child_doc_id ≠ o1.result.doc_id then (o1, .Ok)
      else
        let s1 := o1.read
        (s1.1, .Moved s1.2)

/-- `Optional::rewind`: reset the position to 0, clear the shelf, rewind
the child if present. -/
def Optional.rewind (o : Optional) : Optional :=
  { o with result := { o.result with doc_id := 0 },
           child_result_shelved := none,
           child := o.child.map MockIterator.rewind }

/-- The combinator state after `n` calls to `read` (return values
discarded). -/
def Optional.afterReads (o : Optional) : Nat → Optional
  | 0 => o
  | n + 1 => ((o.afterReads n).read).1

/-- The list of the return values of the first `n` calls to `read`. -/
def Optional.readAll (o : Optional) : Nat → List (Option RSIndexResult)
  | 0 => []
  | n + 1 =>
    let s := o.read
    s.2 :: s.1.readAll n

/-- A stream a contract-satisfying child presents: strictly ascending,
positive document ids. -/
def docsSorted (l : List RSIndexResult) : Prop :=
  l.Pairwise (fun a b => a.doc_id < b.doc_id) ∧ ∀ r ∈ l, 1 ≤ r.doc_id

instance (l : List RSIndexResult) : Decidable (docsSorted l) := by
  unfold docsSorted
  infer_instance

/-- Well-formedness of a mock child: the fixed stream is sorted, the
remaining suffix is sorted, and every remaining element lies strictly
beyond the current slot. -/
def MockIterator.Wf (m : MockIterator) : Prop :=
  docsSorted m.full ∧
  m.remaining.Pairwise (fun a b => a.doc_id < b.doc_id) ∧
  ∀ r ∈ m.remaining, m.result.doc_id < r.doc_id

/-- Invariant of the `Optional` combinator, established by `Optional.new`
and preserved by every operation: the position never exceeds the bound,
and a present child is well formed and is never strictly behind the
combinator position unless one of the two is exhausted. -/
def Optional.Wf (o : Optional) : Prop :=
  o.result.doc_id ≤ o.max_doc_id ∧
  ∀ c, o.child = some c →
    c.Wf ∧ (o.max_doc_id ≤ o.result.doc_id ∨ c.remaining = [] ∨ o.result.doc_id ≤ c.last_doc_id)

/-! ### Helper lemmas about the mock child -/

theorem MockIterator.set_result_weight_wf (m : MockIterator) (w : Rat) (h : m.Wf) :
    (m.set_result_weight w).Wf := by
  obtain ⟨h1, h2, h3⟩ := h
  exact ⟨h1, h2, h3⟩

theorem MockIterator.set_result_weight_last (m : MockIterator) (w : Rat) :
    (m.set_result_weight w).last_doc_id = m.last_doc_id := rfl

theorem MockIterator.read_empty (m : MockIterator) (h : m.remaining = []) :
    m.read = (m, none) := by
  unfold MockIterator.read
  rw [h]

theorem MockIterator.read_cons (m : MockIterator) (r : RSIndexResult)
    (rest : List RSIndexResult) (h : m.remaining = r :: rest) :
    m.read = ({ m with remaining := rest, result := r }, some r) := by
  unfold MockIterator.read
  rw [h]

theorem MockIterator.read_wf (m : MockIterator) (h : m.Wf) : (m.read).1.Wf := by
  obtain ⟨h1, h2, h3⟩ := h
  match hr : m.remaining with
  | [] => rw [m.read_empty hr]; exact ⟨h1, hr ▸ h2, hr ▸ h3⟩
  | r :: rest =>
    rw [m.read_cons r rest hr]
    rw [hr] at h2
    refine ⟨h1, (List.pairwise_cons.mp h2).2, ?_⟩
    intro x hx
    exact (List.pairwise_cons.mp h2).1 x hx

theorem MockIterator.read_some (m : MockIterator) (r : RSIndexResult)
    (h : (m.read).2 = some r) :
    (m.read).1.result = r ∧ (m.read).1.last_doc_id = r.doc_id ∧
      m.remaining = r :: (m.read).1.remaining := by
  rcases hr : m.remaining with - | ⟨x, rest⟩
  · rw [m.read_empty hr] at h
    exact absurd h (by simp)
  · rw [m.read_cons x rest hr] at h ⊢
    obtain rfl : x = r := by simpa using h
    exact ⟨rfl, rfl, rfl⟩

theorem MockIterator.read_some_gt (m : MockIterator) (r : RSIndexResult)
    (hw : m.Wf) (h : (m.read).2 = some r) : m.last_doc_id < r.doc_id := by
  obtain ⟨-, -, h3⟩ := hw
  obtain ⟨-, -, hrem⟩ := m.read_some r h
  exact h3 r (by rw [hrem]; exact List.mem_cons_self r _)

theorem MockIterator.wf_of_rewind (m : MockIterator) (h : m.Wf) : m.rewind.Wf := by
  obtain ⟨⟨hp, hpos⟩, -, -⟩ := h
  refine ⟨⟨hp, hpos⟩, hp, ?_⟩
  intro r hr
  exact Nat.lt_of_lt_of_le Nat.zero_lt_one (hpos r hr)

theorem MockIterator.rewind_last (m : MockIterator) : m.rewind.last_doc_id = 0 := rfl

theorem MockIterator.wf_of_new (docs : List RSIndexResult) (rv : MockRevalidateResult)
    (h : docsSorted docs) : (MockIterator.new docs rv).Wf := by
  obtain ⟨hp, hpos⟩ := h
  refine ⟨⟨hp, hpos⟩, hp, ?_⟩
  intro r hr
  exact Nat.lt_of_lt_of_le Nat.zero_lt_one (hpos r hr)

theorem MockIterator.read_none (m : MockIterator) (h : (m.read).2 = none) :
    m.remaining = [] ∧ (m.read).1 = m := by
  rcases hr : m.remaining with - | ⟨x, rest⟩
  · exact ⟨rfl, by rw [m.read_empty hr]⟩
  · rw [m.read_cons x rest hr] at h
    exact absurd h (by simp)

/-! ### Case analysis of the child consultation inside `Optional::read` -/

theorem Optional.read_inner_cases (o : Optional) :
    ((o.read_inner).1 = none ∧ o.child = none ∧ (o.read_inner).2.2 = none) ∨
    (∃ c, o.child = some c ∧ (o.read_inner).1 = some c ∧
      c.last_doc_id = o.result.doc_id + 1 ∧ (o.read_inner).2.2 = c.current) ∨
    (∃ c, o.child = some c ∧ (o.read_inner).1 = some c ∧
      o.result.doc_id + 1 ≤ c.last_doc_id ∧ (o.read_inner).2.2 = none) ∨
    (∃ c, o.child = some c ∧ (o.read_inner).1 = some (c.read).1 ∧
      (o.read_inner).2.2 = (c.read).2) := by
  rcases hc : o.child with - | c
  · exact Or.inl ⟨by simp [Optional.read_inner, hc], rfl, by simp [Optional.read_inner, hc]⟩
  · rcases hs : o.child_result_shelved with - | a
    · by_cases hgap : o.result.doc_id + 1 < c.last_doc_id
      · exact Or.inr (Or.inr (Or.inl ⟨c, rfl,
          by simp [Optional.read_inner, hc, hs, hgap], Nat.le_of_lt hgap,
          by simp [Optional.read_inner, hc, hs, hgap]⟩))
      · exact Or.inr (Or.inr (Or.inr ⟨c, rfl,
          by simp [Optional.read_inner, hc, hs, hgap],
          by simp [Optional.read_inner, hc, hs, hgap]⟩))
    · by_cases hhit : o.result.doc_id + 1 = a ∧ c.last_doc_id = a
      · exact Or.inr (Or.inl ⟨c, rfl,
          by simp [Optional.read_inner, hc, hs, hhit],
          by rw [hhit.2, hhit.1],
          by simp [Optional.read_inner, hc, hs, hhit]⟩)
      · by_cases hgap : o.result.doc_id + 1 < c.last_doc_id
        · exact Or.inr (Or.inr (Or.inl ⟨c, rfl,
            by simp [Optional.read_inner, hc, hs, hhit, hgap], Nat.le_of_lt hgap,
            by simp [Optional.read_inner, hc, hs, hhit, hgap]⟩))
        · exact Or.inr (Or.inr (Or.inr ⟨c, rfl,
            by simp [Optional.read_inner, hc, hs, hhit, hgap],
            by simp [Optional.read_inner, hc, hs, hhit, hgap]⟩))

theorem Optional.at_eof_iff (o : Optional) :
    o.at_eof = true ↔ o.max_doc_id ≤ o.result.doc_id := by
  simp [Optional.at_eof]

theorem Optional.read_eof (o : Optional) (h : o.max_doc_id ≤ o.result.doc_id) :
    o.read = (o, none) := by
  unfold Optional.read
  rw [if_pos (o.at_eof_iff.mpr h)]

theorem Optional.read_eq_real (o : Optional) (hne : ¬ o.max_doc_id ≤ o.result.doc_id)
    (r : RSIndexResult) (h22 : (o.read_inner).2.2 = some r)
    (hr : ¬ o.result.doc_id + 1 < r.doc_id) :
    o.read = ({ o with child := ((o.read_inner).1).map (fun c => c.set_result_weight o.weight), child_result_shelved := (o.read_inner).2.1, result := { o.result with doc_id := o.result.doc_id + 1 } }, some { r with weight := o.weight }) := by
  unfold Optional.read
  rw [if_neg (fun h => hne (o.at_eof_iff.mp h))]
  simp only [h22, if_neg hr]

theorem Optional.read_eq_demote (o : Optional) (hne : ¬ o.max_doc_id ≤ o.result.doc_id)
    (r : RSIndexResult) (h22 : (o.read_inner).2.2 = some r)
    (hr : o.result.doc_id + 1 < r.doc_id) :
    o.read = ({ o with child := (o.read_inner).1, child_result_shelved := some r.doc_id, result := { o.result with doc_id := o.result.doc_id + 1 } }, some { o.result with doc_id := o.result.doc_id + 1 }) := by
  unfold Optional.read
  rw [if_neg (fun h => hne (o.at_eof_iff.mp h))]
  simp only [h22, if_pos hr]

theorem Optional.read_eq_virtual (o : Optional) (hne : ¬ o.max_doc_id ≤ o.result.doc_id)
    (h22 : (o.read_inner).2.2 = none) :
    o.read = ({ o with child := (o.read_inner).1, child_result_shelved := (o.read_inner).2.1, result := { o.result with doc_id := o.result.doc_id + 1 } }, some { o.result with doc_id := o.result.doc_id + 1 }) := by
  unfold Optional.read
  rw [if_neg (fun h => hne (o.at_eof_iff.mp h))]
  simp only [h22]

theorem Optional.read_frame (o : Optional) :
    (o.read).1.max_doc_id = o.max_doc_id ∧ (o.read).1.weight = o.weight ∧
    (o.read).1.result.weight = o.result.weight ∧ (o.read).1.result.freq = o.result.freq ∧
    (o.read).1.result.field_mask = o.result.field_mask ∧
    (o.read).1.result.is_virtual = o.result.is_virtual := by
  by_cases hne : o.max_doc_id ≤ o.result.doc_id
  · rw [o.read_eof hne]
    exact ⟨rfl, rfl, rfl, rfl, rfl, rfl⟩
  · rcases h22 : (o.read_inner).2.2 with - | r
    · rw [o.read_eq_virtual hne h22]
      exact ⟨rfl, rfl, rfl, rfl, rfl, rfl⟩
    · by_cases hdem : o.result.doc_id + 1 < r.doc_id
      · rw [o.read_eq_demote hne r h22 hdem]
        exact ⟨rfl, rfl, rfl, rfl, rfl, rfl⟩
      · rw [o.read_eq_real hne r h22 hdem]
        exact ⟨rfl, rfl, rfl, rfl, rfl, rfl⟩

theorem Optional.read_spec (o : Optional) (hw : o.Wf)
    (hne : ¬ o.max_doc_id ≤ o.result.doc_id) :
    (o.read).1.Wf ∧ (o.read).1.result.doc_id = o.result.doc_id + 1 ∧
    ∃ r, (o.read).2 = some r ∧ r.doc_id = o.result.doc_id + 1 := by
  obtain ⟨hle, hchild⟩ := hw
  rcases o.read_inner_cases with ⟨h1, hc, h22⟩ | ⟨c, hc, h1, hlast, h22⟩ |
    ⟨c, hc, h1, hlast, h22⟩ | ⟨c, hc, h1, h22⟩
  · -- no child: virtual result
    rw [o.read_eq_virtual hne h22]
    refine ⟨⟨(by omega : o.result.doc_id + 1 ≤ o.max_doc_id), ?_⟩, rfl, _, rfl, rfl⟩
    intro c2 hc2
    rw [show ({ o with child := (o.read_inner).1, child_result_shelved := (o.read_inner).2.1, result := { o.result with doc_id := o.result.doc_id + 1 } } : Optional).child = (o.read_inner).1 from rfl, h1] at hc2
    exact absurd hc2 (by simp)
  · -- shelf hit: consume the shelved child result
    have hcwf := (hchild c hc).1
    have hc0 : ¬ c.result.doc_id = 0 := by
      unfold MockIterator.last_doc_id at hlast
      omega
    have hcur : c.current = some c.result := by
      simp [MockIterator.current, hc0]
    rw [hcur] at h22
    have hdoc : c.result.doc_id = o.result.doc_id + 1 := hlast
    rw [o.read_eq_real hne c.result h22 (by omega)]
    refine ⟨⟨(by omega : o.result.doc_id + 1 ≤ o.max_doc_id), ?_⟩, rfl, _, rfl, hdoc⟩
    intro c2 hc2
    rw [show ({ o with child := ((o.read_inner).1).map (fun c => c.set_result_weight o.weight), child_result_shelved := (o.read_inner).2.1, result := { o.result with doc_id := o.result.doc_id + 1 } } : Optional).child = ((o.read_inner).1).map (fun c => c.set_result_weight o.weight) from rfl, h1] at hc2
    rw [Option.map_some'] at hc2
    obtain rfl : c.set_result_weight o.weight = c2 := by simpa using hc2
    refine ⟨c.set_result_weight_wf o.weight hcwf, Or.inr (Or.inr ?_)⟩
    show o.result.doc_id + 1 ≤ (c.set_result_weight o.weight).last_doc_id
    rw [c.set_result_weight_last]
    omega
  · -- child strictly ahead: virtual result, child untouched
    rw [o.read_eq_virtual hne h22]
    refine ⟨⟨(by omega : o.result.doc_id + 1 ≤ o.max_doc_id), ?_⟩, rfl, _, rfl, rfl⟩
    intro c2 hc2
    rw [show ({ o with child := (o.read_inner).1, child_result_shelved := (o.read_inner).2.1, result := { o.result with doc_id := o.result.doc_id + 1 } } : Optional).child = (o.read_inner).1 from rfl, h1] at hc2
    obtain rfl : c = c2 := by simpa using hc2
    refine ⟨(hchild c hc).1, Or.inr (Or.inr ?_)⟩
    show o.result.doc_id + 1 ≤ c.last_doc_id
    omega
  · -- consult the child through its read
    have hcwf := (hchild c hc).1
    rcases h2 : (c.read).2 with - | r
    · -- child exhausted: virtual result
      obtain ⟨hrem, hsame⟩ := c.read_none h2
      rw [h2] at h22
      rw [o.read_eq_virtual hne h22]
      refine ⟨⟨(by omega : o.result.doc_id + 1 ≤ o.max_doc_id), ?_⟩, rfl, _, rfl, rfl⟩
      intro c2 hc2
      rw [show ({ o with child := (o.read_inner).1, child_result_shelved := (o.read_inner).2.1, result := { o.result with doc_id := o.result.doc_id + 1 } } : Optional).child = (o.read_inner).1 from rfl, h1, hsame] at hc2
      obtain rfl : c = c2 := by simpa using hc2
      exact ⟨hcwf, Or.inr (Or.inl hrem)⟩
    · -- the child produced a result
      rw [h2] at h22
      have hgt : c.last_doc_id < r.doc_id := c.read_some_gt r hcwf h2
      obtain ⟨hres, hlast2, hrem⟩ := c.read_some r h2
      have hpos : o.result.doc_id ≤ c.last_doc_id := by
        rcases (hchild c hc).2 with h | h | h
        · omega
        · rw [h] at hrem
          exact absurd hrem (by simp)
        · exact h
      by_cases hdem : o.result.doc_id + 1 < r.doc_id
      · -- demote and shelve
        rw [o.read_eq_demote hne r h22 hdem]
        refine ⟨⟨(by omega : o.result.doc_id + 1 ≤ o.max_doc_id), ?_⟩, rfl, _, rfl, rfl⟩
        intro c2 hc2
        rw [show ({ o with child := (o.read_inner).1, child_result_shelved := some r.doc_id, result := { o.result with doc_id := o.result.doc_id + 1 } } : Optional).child = (o.read_inner).1 from rfl, h1] at hc2
        obtain rfl : (c.read).1 = c2 := by simpa using hc2
        refine ⟨c.read_wf hcwf, Or.inr (Or.inr ?_)⟩
        show o.result.doc_id + 1 ≤ (c.read).1.last_doc_id
        rw [hlast2]
        omega
      · -- real result at exactly the next position
        have hdoc : r.doc_id = o.result.doc_id + 1 := by omega
        rw [o.read_eq_real hne r h22 hdem]
        refine ⟨⟨(by omega : o.result.doc_id + 1 ≤ o.max_doc_id), ?_⟩, rfl, _, rfl, hdoc⟩
        intro c2 hc2
        rw [show ({ o with child := ((o.read_inner).1).map (fun c => c.set_result_weight o.weight), child_result_shelved := (o.read_inner).2.1, result := { o.result with doc_id := o.result.doc_id + 1 } } : Optional).child = ((o.read_inner).1).map (fun c => c.set_result_weight o.weight) from rfl, h1] at hc2
        rw [Option.map_some'] at hc2
        obtain rfl : (c.read).1.set_result_weight o.weight = c2 := by simpa using hc2
        refine ⟨(c.read).1.set_result_weight_wf o.weight (c.read_wf hcwf),
          Or.inr (Or.inr ?_)⟩
        show o.result.doc_id + 1 ≤ ((c.read).1.set_result_weight o.weight).last_doc_id
        rw [(c.read).1.set_result_weight_last, hlast2]
        omega

theorem Optional.new_wf (max_id : Nat) (w : Rat) (docs : List RSIndexResult)
    (rv : MockRevalidateResult) (h : docsSorted docs) :
    (Optional.new max_id w (MockIterator.new docs rv)).Wf := by
  refine ⟨Nat.zero_le _, ?_⟩
  intro c hc
  obtain rfl : MockIterator.new docs rv = c := by
    simpa [Optional.new] using hc
  exact ⟨MockIterator.wf_of_new docs rv h, Or.inr (Or.inr (Nat.zero_le _))⟩

theorem Optional.afterReads_spec (o : Optional) (hw : o.Wf) :
    ∀ n, o.result.doc_id + n ≤ o.max_doc_id →
      (o.afterReads n).Wf ∧ (o.afterReads n).result.doc_id = o.result.doc_id + n ∧
      (o.afterReads n).max_doc_id = o.max_doc_id := by
  intro n
  induction n with
  | zero => exact fun _ => ⟨hw, rfl, rfl⟩
  | succ n ih =>
    intro hn
    obtain ⟨hwn, hdoc, hmax⟩ := ih (by omega)
    have hne : ¬ (o.afterReads n).max_doc_id ≤ (o.afterReads n).result.doc_id := by
      rw [hdoc, hmax]
      omega
    obtain ⟨hw2, hdoc2, -⟩ := (o.afterReads n).read_spec hwn hne
    refine ⟨hw2, ?_, ?_⟩
    · show ((o.afterReads n).read).1.result.doc_id = o.result.doc_id + (n + 1)
      rw [hdoc2, hdoc]
      omega
    · show ((o.afterReads n).read).1.max_doc_id = o.max_doc_id
      rw [((o.afterReads n).read_frame).1, hmax]

theorem Optional.afterReads_eof (o : Optional) (h : o.max_doc_id ≤ o.result.doc_id) :
    ∀ n, o.afterReads n = o := by
  intro n
  induction n with
  | zero => rfl
  | succ n ih =>
    show ((o.afterReads n).read).1 = o
    rw [ih, o.read_eof h]

/-! ### Helper lemmas about `skip_to` -/

theorem dropWhile_cons_head_false {α : Type} (p : α → Bool) (l : List α) (r : α)
    (rest : List α) (h : l.dropWhile p = r :: rest) : p r = false := by
  induction l with
  | nil => simp at h
  | cons a l ih =>
    rw [List.dropWhile_cons] at h
    split at h
    · exact ih h
    · next hpa =>
      injection h with h1 h2
      subst h1
      exact Bool.eq_false_iff.mpr hpa

theorem MockIterator.skip_to_nil (m : MockIterator) (t : Nat)
    (h : m.remaining.dropWhile (fun r => r.doc_id < t) = []) :
    m.skip_to t = ({ m with remaining := [] }, none) := by
  unfold MockIterator.skip_to
  rw [h]

theorem MockIterator.skip_to_cons (m : MockIterator) (t : Nat) (r : RSIndexResult)
    (rest : List RSIndexResult)
    (h : m.remaining.dropWhile (fun r => r.doc_id < t) = r :: rest) :
    m.skip_to t = ({ m with remaining := rest, result := r },
      some (if r.doc_id = t then .Found r else .NotFound r)) := by
  unfold MockIterator.skip_to
  rw [h]

theorem MockIterator.wf_of_skip_to (m : MockIterator) (t : Nat) (h : m.Wf) :
    ((m.skip_to t).1).Wf := by
  obtain ⟨h1, h2, h3⟩ := h
  rcases hd : m.remaining.dropWhile (fun r => r.doc_id < t) with - | ⟨r, rest⟩
  · rw [m.skip_to_nil t hd]
    exact ⟨h1, List.Pairwise.nil, by simp⟩
  · rw [m.skip_to_cons t r rest hd]
    have hpw : (r :: rest).Pairwise (fun a b => a.doc_id < b.doc_id) := by
      rw [← hd]
      exact h2.sublist (List.dropWhile_sublist _)
    exact ⟨h1, (List.pairwise_cons.mp hpw).2, fun x hx => (List.pairwise_cons.mp hpw).1 x hx⟩

theorem Optional.skip_to_pin (o : Optional) (t : Nat)
    (h : o.max_doc_id < t ∨ o.max_doc_id ≤ o.result.doc_id) :
    o.skip_to t = ({ o with result := { o.result with doc_id := o.max_doc_id } }, none) := by
  unfold Optional.skip_to
  rw [if_pos (h.imp id (fun h2 => o.at_eof_iff.mpr h2))]

theorem Optional.skip_to_no_child (o : Optional) (t : Nat) (hc : o.child = none)
    (ht : t ≤ o.max_doc_id) (hne : ¬ o.max_doc_id ≤ o.result.doc_id) :
    o.skip_to t = ({ o with result := { o.result with doc_id := t } },
      some (.Found { o.result with doc_id := t })) := by
  unfold Optional.skip_to
  rw [if_neg (by rw [o.at_eof_iff]; omega)]
  simp only [hc]

theorem Optional.skip_to_no_consult (o : Optional) (t : Nat) (c : MockIterator)
    (hc : o.child = some c) (ht : t ≤ o.max_doc_id)
    (hne : ¬ o.max_doc_id ≤ o.result.doc_id) (hg : ¬ c.last_doc_id < t) :
    o.skip_to t = ({ o with result := { o.result with doc_id := t } },
      some (.Found { o.result with doc_id := t })) := by
  unfold Optional.skip_to
  rw [if_neg (by rw [o.at_eof_iff]; omega)]
  simp only [hc, if_neg hg]

theorem Optional.skip_to_consult_miss (o : Optional) (t : Nat) (c : MockIterator)
    (hc : o.child = some c) (ht : t ≤ o.max_doc_id)
    (hne : ¬ o.max_doc_id ≤ o.result.doc_id) (hg : c.last_doc_id < t)
    (h2 : (c.skip_to t).2 = none ∨ ∃ r, (c.skip_to t).2 = some (.NotFound r)) :
    o.skip_to t = ({ o with child := some (c.skip_to t).1, result := { o.result with doc_id := t } }, some (.Found { o.result with doc_id := t })) := by
  unfold Optional.skip_to
  rw [if_neg (by rw [o.at_eof_iff]; omega)]
  rcases h2 with h2 | ⟨r, h2⟩ <;> simp only [hc, if_pos hg, h2]

theorem Optional.skip_to_consult_found (o : Optional) (t : Nat) (c : MockIterator)
    (real : RSIndexResult) (hc : o.child = some c) (ht : t ≤ o.max_doc_id)
    (hne : ¬ o.max_doc_id ≤ o.result.doc_id) (hg : c.last_doc_id < t)
    (h2 : (c.skip_to t).2 = some (.Found real)) (hrt : real.doc_id = t) :
    o.skip_to t = ({ o with child := some ((c.skip_to t).1.set_result_weight o.weight), result := { o.result with doc_id := real.doc_id } }, some (.Found { real with weight := o.weight })) := by
  unfold Optional.skip_to
  rw [if_neg (by rw [o.at_eof_iff]; omega)]
  simp only [hc, if_pos hg, h2, if_pos hrt]

theorem MockIterator.skip_to_found_doc (m : MockIterator) (t : Nat) (r : RSIndexResult)
    (h : (m.skip_to t).2 = some (.Found r)) : r.doc_id = t := by
  rcases hd : m.remaining.dropWhile (fun x => x.doc_id < t) with - | ⟨a, rest⟩
  · rw [m.skip_to_nil t hd] at h
    exact absurd h (by simp)
  · rw [m.skip_to_cons t a rest hd] at h
    by_cases hat : a.doc_id = t
    · rw [if_pos hat] at h
      obtain rfl : a = r := by simpa using h
      exact hat
    · rw [if_neg hat] at h
      exact absurd h (by simp)

theorem Optional.skip_to_shelf (o : Optional) (t : Nat) :
    ((o.skip_to t).1).child_result_shelved = o.child_result_shelved := by
  by_cases hp : o.max_doc_id < t ∨ o.max_doc_id ≤ o.result.doc_id
  · rw [o.skip_to_pin t hp]
  · push_neg at hp
    obtain ⟨ht, hne⟩ := hp
    have ht2 : t ≤ o.max_doc_id := by omega
    have hne2 : ¬ o.max_doc_id ≤ o.result.doc_id := by omega
    rcases hc : o.child with - | c
    · rw [o.skip_to_no_child t hc ht2 hne2]
    · by_cases hg : c.last_doc_id < t
      · rcases h2 : (c.skip_to t).2 with - | outcome
        · rw [o.skip_to_consult_miss t c hc ht2 hne2 hg (Or.inl h2)]
        · rcases outcome with r | r
          · rw [o.skip_to_consult_found t c r hc ht2 hne2 hg h2 (c.skip_to_found_doc t r h2)]
          · rw [o.skip_to_consult_miss t c hc ht2 hne2 hg (Or.inr ⟨r, h2⟩)]
      · rw [o.skip_to_no_consult t c hc ht2 hne2 hg]

theorem Optional.skip_to_frame (o : Optional) (t : Nat) :
    ((o.skip_to t).1).max_doc_id = o.max_doc_id ∧ ((o.skip_to t).1).weight = o.weight ∧
    ((o.skip_to t).1).result.weight = o.result.weight ∧
    ((o.skip_to t).1).result.freq = o.result.freq ∧
    ((o.skip_to t).1).result.field_mask = o.result.field_mask ∧
    ((o.skip_to t).1).result.is_virtual = o.result.is_virtual := by
  by_cases hp : o.max_doc_id < t ∨ o.max_doc_id ≤ o.result.doc_id
  · rw [o.skip_to_pin t hp]
    exact ⟨rfl, rfl, rfl, rfl, rfl, rfl⟩
  · push_neg at hp
    obtain ⟨ht, hne⟩ := hp
    have ht2 : t ≤ o.max_doc_id := by omega
    have hne2 : ¬ o.max_doc_id ≤ o.result.doc_id := by omega
    rcases hc : o.child with - | c
    · rw [o.skip_to_no_child t hc ht2 hne2]
      exact ⟨rfl, rfl, rfl, rfl, rfl, rfl⟩
    · by_cases hg : c.last_doc_id < t
      · rcases h2 : (c.skip_to t).2 with - | outcome
        · rw [o.skip_to_consult_miss t c hc ht2 hne2 hg (Or.inl h2)]
          exact ⟨rfl, rfl, rfl, rfl, rfl, rfl⟩
        · rcases outcome with r | r
          · rw [o.skip_to_consult_found t c r hc ht2 hne2 hg h2 (c.skip_to_found_doc t r h2)]
            exact ⟨rfl, rfl, rfl, rfl, rfl, rfl⟩
          · rw [o.skip_to_consult_miss t c hc ht2 hne2 hg (Or.inr ⟨r, h2⟩)]
            exact ⟨rfl, rfl, rfl, rfl, rfl, rfl⟩
      · rw [o.skip_to_no_consult t c hc ht2 hne2 hg]
        exact ⟨rfl, rfl, rfl, rfl, rfl, rfl⟩

theorem Optional.skip_to_wf (o : Optional) (t : Nat) (hw : o.Wf) :
    ((o.skip_to t).1).Wf := by
  obtain ⟨hle, hchild⟩ := hw
  by_cases hp : o.max_doc_id < t ∨ o.max_doc_id ≤ o.result.doc_id
  · rw [o.skip_to_pin t hp]
    refine ⟨(Nat.le_refl o.max_doc_id : o.max_doc_id ≤ o.max_doc_id), ?_⟩
    intro c2 hc2
    have hc2b : o.child = some c2 := hc2
    exact ⟨(hchild c2 hc2b).1, Or.inl (Nat.le_refl o.max_doc_id)⟩
  · push_neg at hp
    obtain ⟨ht, hne⟩ := hp
    have ht2 : t ≤ o.max_doc_id := by omega
    have hne2 : ¬ o.max_doc_id ≤ o.result.doc_id := by omega
    rcases hc : o.child with - | c
    · rw [o.skip_to_no_child t hc ht2 hne2]
      refine ⟨(ht2 : t ≤ o.max_doc_id), ?_⟩
      intro c2 hc2
      have hc2b : o.child = some c2 := hc2
      rw [hc] at hc2b
      exact absurd hc2b (by simp)
    · have hcwf := (hchild c hc).1
      by_cases hg : c.last_doc_id < t
      · rcases hd : c.remaining.dropWhile (fun x => x.doc_id < t) with - | ⟨a, rest⟩
        · have h2 : (c.skip_to t).2 = none := by rw [c.skip_to_nil t hd]
          rw [o.skip_to_consult_miss t c hc ht2 hne2 hg (Or.inl h2)]
          refine ⟨(ht2 : t ≤ o.max_doc_id), ?_⟩
          intro c2 hc2
          have hc2b : some (c.skip_to t).1 = some c2 := hc2
          obtain rfl : (c.skip_to t).1 = c2 := by simpa using hc2b
          refine ⟨c.wf_of_skip_to t hcwf, Or.inr (Or.inl ?_)⟩
          rw [c.skip_to_nil t hd]
        · have hge : ¬ a.doc_id < t := by
            have hfalse := dropWhile_cons_head_false _ _ a rest hd
            simpa using hfalse
          by_cases hat : a.doc_id = t
          · have h2 : (c.skip_to t).2 = some (.Found a) := by
              rw [c.skip_to_cons t a rest hd, if_pos hat]
            rw [o.skip_to_consult_found t c a hc ht2 hne2 hg h2 hat]
            refine ⟨(by omega : a.doc_id ≤ o.max_doc_id), ?_⟩
            intro c2 hc2
            have hc2b : some ((c.skip_to t).1.set_result_weight o.weight) = some c2 := hc2
            obtain rfl : (c.skip_to t).1.set_result_weight o.weight = c2 := by
              simpa using hc2b
            refine ⟨(c.skip_to t).1.set_result_weight_wf o.weight (c.wf_of_skip_to t hcwf),
              Or.inr (Or.inr ?_)⟩
            show a.doc_id ≤ ((c.skip_to t).1.set_result_weight o.weight).last_doc_id
            rw [(c.skip_to t).1.set_result_weight_last, c.skip_to_cons t a rest hd]
            exact Nat.le_refl a.doc_id
          · have h2 : (c.skip_to t).2 = some (.NotFound a) := by
              rw [c.skip_to_cons t a rest hd, if_neg hat]
            rw [o.skip_to_consult_miss t c hc ht2 hne2 hg (Or.inr ⟨a, h2⟩)]
            refine ⟨(ht2 : t ≤ o.max_doc_id), ?_⟩
            intro c2 hc2
            have hc2b : some (c.skip_to t).1 = some c2 := hc2
            obtain rfl : (c.skip_to t).1 = c2 := by simpa using hc2b
            refine ⟨c.wf_of_skip_to t hcwf, Or.inr (Or.inr ?_)⟩
            show t ≤ (c.skip_to t).1.last_doc_id
            rw [c.skip_to_cons t a rest hd]
            show t ≤ a.doc_id
            omega
      · rw [o.skip_to_no_consult t c hc ht2 hne2 hg]
        refine ⟨(ht2 : t ≤ o.max_doc_id), ?_⟩
        intro c2 hc2
        have hc2b : o.child = some c2 := hc2
        rw [hc] at hc2b
        obtain rfl : c = c2 := by simpa using hc2b
        refine ⟨hcwf, Or.inr (Or.inr ?_)⟩
        show t ≤ c.last_doc_id
        omega

/-! ### Helper lemmas about `rewind` and `revalidate` -/

theorem Optional.rewind_wf (o : Optional) (hw : o.Wf) : (o.rewind).Wf := by
  refine ⟨Nat.zero_le _, ?_⟩
  intro c2 hc2
  have hc2b : o.child.map MockIterator.rewind = some c2 := hc2
  rcases hc : o.child with - | c
  · rw [hc] at hc2b
    exact absurd hc2b (by simp)
  · rw [hc, Option.map_some'] at hc2b
    obtain rfl : c.rewind = c2 := by simpa using hc2b
    exact ⟨c.wf_of_rewind (hw.2 c hc).1, Or.inr (Or.inr (Nat.zero_le _))⟩

theorem Optional.read_no_child (o : Optional) (hc : o.child = none)
    (hne : ¬ o.max_doc_id ≤ o.result.doc_id) :
    o.read = ({ o with child := none, result := { o.result with doc_id := o.result.doc_id + 1 } }, some { o.result with doc_id := o.result.doc_id + 1 }) := by
  have hinner : o.read_inner = (none, o.child_result_shelved, none) := by
    unfold Optional.read_inner
    rw [hc]
  rw [o.read_eq_virtual hne (by rw [hinner])]
  rw [hinner]

theorem MockIterator.revalidate_ok (m : MockIterator) (h : m.reval = .Ok) :
    m.revalidate = (m, .Ok) := by
  unfold MockIterator.revalidate
  rw [h]

theorem MockIterator.revalidate_abort (m : MockIterator) (h : m.reval = .Abort) :
    m.revalidate = (m, .Aborted) := by
  unfold MockIterator.revalidate
  rw [h]

theorem MockIterator.revalidate_move (m : MockIterator) (h : m.reval = .Move) :
    m.revalidate = ((m.read).1, .Moved (m.read).2) := by
  unfold MockIterator.revalidate
  rw [h]

theorem Optional.revalidate_no_child (o : Optional) (hc : o.child = none) :
    o.revalidate = (o, .Ok) := by
  unfold Optional.revalidate
  rw [hc]

theorem Optional.revalidate_child_ok (o : Optional) (c : MockIterator)
    (hc : o.child = some c) (hrv : c.reval = .Ok) :
    o.revalidate = ({ o with child := some c }, .Ok) := by
  unfold Optional.revalidate
  simp only [hc, c.revalidate_ok hrv]

theorem Optional.revalidate_abort_virtual (o : Optional) (c : MockIterator)
    (hc : o.child = some c) (hrv : c.reval = .Abort)
    (hneq : c.last_doc_id ≠ o.result.doc_id) :
    o.revalidate = ({ o with child := none }, .Ok) := by
  unfold Optional.revalidate
  simp only [hc, c.revalidate_abort hrv]
  rw [if_pos hneq]

theorem Optional.revalidate_abort_real (o : Optional) (c : MockIterator)
    (hc : o.child = some c) (hrv : c.reval = .Abort)
    (heq : c.last_doc_id = o.result.doc_id) :
    o.revalidate = (((({ o with child := none } : Optional)).read).1,
      .Moved ((({ o with child := none } : Optional)).read).2) := by
  unfold Optional.revalidate
  simp only [hc, c.revalidate_abort hrv]
  rw [if_neg (by simpa using heq)]

theorem Optional.revalidate_move_virtual (o : Optional) (c : MockIterator)
    (hc : o.child = some c) (hrv : c.reval = .Move)
    (hneq : c.last_doc_id ≠ o.result.doc_id) :
    o.revalidate = ({ o with child := some (c.read).1 }, .Ok) := by
  unfold Optional.revalidate
  simp only [hc, c.revalidate_move hrv]
  rw [if_pos hneq]

theorem Optional.revalidate_move_real (o : Optional) (c : MockIterator)
    (hc : o.child = some c) (hrv : c.reval = .Move)
    (heq : c.last_doc_id = o.result.doc_id) :
    o.revalidate = (((({ o with child := some (c.read).1 } : Optional)).read).1,
      .Moved ((({ o with child := some (c.read).1 } : Optional)).read).2) := by
  unfold Optional.revalidate
  simp only [hc, c.revalidate_move hrv]
  rw [if_neg (by simpa using heq)]

theorem Optional.revalidate_ne_aborted (o : Optional) :
    (o.revalidate).2 ≠ RQEValidateStatus.Aborted := by
  rcases hc : o.child with - | c
  · rw [o.revalidate_no_child hc]
    simp
  · rcases hrv : c.reval
    · rw [o.revalidate_child_ok c hc hrv]
      simp
    · by_cases heq : c.last_doc_id = o.result.doc_id
      · rw [o.revalidate_move_real c hc hrv heq]
        simp
      · rw [o.revalidate_move_virtual c hc hrv heq]
        simp
    · by_cases heq : c.last_doc_id = o.result.doc_id
      · rw [o.revalidate_abort_real c hc hrv heq]
        simp
      · rw [o.revalidate_abort_virtual c hc hrv heq]
        simp

theorem Optional.read_doc_le (o : Optional) (h : o.result.doc_id ≤ o.max_doc_id) :
    ((o.read).1).result.doc_id ≤ ((o.read).1).max_doc_id := by
  by_cases hne : o.max_doc_id ≤ o.result.doc_id
  · rw [o.read_eof hne]
    exact h
  · rcases h22 : (o.read_inner).2.2 with - | r
    · rw [o.read_eq_virtual hne h22]
      show o.result.doc_id + 1 ≤ o.max_doc_id
      omega
    · by_cases hdem : o.result.doc_id + 1 < r.doc_id
      · rw [o.read_eq_demote hne r h22 hdem]
        show o.result.doc_id + 1 ≤ o.max_doc_id
        omega
      · rw [o.read_eq_real hne r h22 hdem]
        show o.result.doc_id + 1 ≤ o.max_doc_id
        omega

theorem Optional.skip_to_doc_le (o : Optional) (t : Nat)
    (h : o.result.doc_id ≤ o.max_doc_id) :
    ((o.skip_to t).1).result.doc_id ≤ ((o.skip_to t).1).max_doc_id := by
  by_cases hp : o.max_doc_id < t ∨ o.max_doc_id ≤ o.result.doc_id
  · rw [o.skip_to_pin t hp]
  · push_neg at hp
    obtain ⟨ht, hne⟩ := hp
    have ht2 : t ≤ o.max_doc_id := by omega
    have hne2 : ¬ o.max_doc_id ≤ o.result.doc_id := by omega
    rcases hc : o.child with - | c
    · rw [o.skip_to_no_child t hc ht2 hne2]
      exact ht2
    · by_cases hg : c.last_doc_id < t
      · rcases h2 : (c.skip_to t).2 with - | outcome
        · rw [o.skip_to_consult_miss t c hc ht2 hne2 hg (Or.inl h2)]
          exact ht2
        · rcases outcome with r | r
          · have hrt := c.skip_to_found_doc t r h2
            rw [o.skip_to_consult_found t c r hc ht2 hne2 hg h2 hrt]
            show r.doc_id ≤ o.max_doc_id
            omega
          · rw [o.skip_to_consult_miss t c hc ht2 hne2 hg (Or.inr ⟨r, h2⟩)]
            exact ht2
      · rw [o.skip_to_no_consult t c hc ht2 hne2 hg]
        exact ht2

theorem Optional.revalidate_doc_le (o : Optional) (h : o.result.doc_id ≤ o.max_doc_id) :
    ((o.revalidate).1).result.doc_id ≤ ((o.revalidate).1).max_doc_id := by
  rcases hc : o.child with - | c
  · rw [o.revalidate_no_child hc]
    exact h
  · rcases hrv : c.reval
    · rw [o.revalidate_child_ok c hc hrv]
      exact h
    · by_cases heq : c.last_doc_id = o.result.doc_id
      · rw [o.revalidate_move_real c hc hrv heq]
        exact Optional.read_doc_le _ h
      · rw [o.revalidate_move_virtual c hc hrv heq]
        exact h
    · by_cases heq : c.last_doc_id = o.result.doc_id
      · rw [o.revalidate_abort_real c hc hrv heq]
        exact Optional.read_doc_le _ h
      · rw [o.revalidate_abort_virtual c hc hrv heq]
        exact h

theorem Optional.afterReads_add (o : Optional) (a b : Nat) :
    o.afterReads (a + b) = (o.afterReads a).afterReads b := by
  induction b with
  | zero => rfl
  | succ b ih =>
    show ((o.afterReads (a + b)).read).1 = (((o.afterReads a).afterReads b).read).1
    rw [ih]

theorem Optional.pin_eta (o : Optional) (h : o.result.doc_id = o.max_doc_id) :
    ({ o with result := { o.result with doc_id := o.max_doc_id } } : Optional) = o := by
  rcases o with ⟨m, w, ⟨d, wt, f, fm, v⟩, c, s⟩
  have h2 : d = m := h
  subst h2
  rfl

/-! ### The child stream of the repository test suite -/

/-- The ids `{10, 20, 30, 50, 80}` used by the repository test suite,
with arbitrary real payloads. -/
def exampleChildDocs : List RSIndexResult :=
  [10, 20, 30, 50, 80].map
    (fun i => { doc_id := i, weight := 1, freq := 5, field_mask := 3, is_virtual := false })

def exampleChildIds : List Nat := [10, 20, 30, 50, 80]

/-- The combinator of the repository test suite: bound 100, weight 2,
over the `{10, 20, 30, 50, 80}` child. -/
def exampleOptional : Optional := Optional.new 100 2 (MockIterator.new exampleChildDocs .Ok)

/-- The outputs the specification predicts for the first 100 reads of
`exampleOptional`. -/
def c2Expected : List (Option RSIndexResult) :=
  (List.range 100).map (fun i =>
    if (i + 1) ∈ exampleChildIds then
      some { doc_id := i + 1, weight := 2, freq := 5, field_mask := 3, is_virtual := false }
    else
      some { doc_id := i + 1, weight := 0, freq := 1, field_mask := RS_FIELDMASK_ALL, is_virtual := true })

theorem c2_run : exampleOptional.readAll 100 = c2Expected := by decide

/-! ### The claims -/

theorem Optional.new_doc_id (max_id : Nat) (w : Rat) (c : MockIterator) :
    (Optional.new max_id w c).result.doc_id = 0 := rfl

theorem Optional.new_max (max_id : Nat) (w : Rat) (c : MockIterator) :
    (Optional.new max_id w c).max_doc_id = max_id := rfl

/-- C1: for every child cursor satisfying the Iterator Contract (a strictly
ascending stream of positive document ids, arbitrary payloads, arbitrary
revalidate configuration) and every bound `max_id >= 1`, on a freshly
constructed `Optional` the n-th `read` returns a result with `doc_id = n`
for every `n` in `[1, max_id]`, the `(max_id + 1)`-th `read` returns
nothing, and `at_eof` holds from that point on. -/
theorem c1_read_ascending_gap_free (docs : List RSIndexResult)
    (rv : MockRevalidateResult) (max_id : Nat) (w : Rat)
    (hdocs : docsSorted docs) (hmax : 1 ≤ max_id) :
    (∀ n, 1 ≤ n → n ≤ max_id →
      ∃ r, (((Optional.new max_id w (MockIterator.new docs rv)).afterReads (n - 1)).read).2
          = some r ∧ r.doc_id = n) ∧
    (((Optional.new max_id w (MockIterator.new docs rv)).afterReads max_id).read).2 = none ∧
    (∀ k, max_id ≤ k →
      ((Optional.new max_id w (MockIterator.new docs rv)).afterReads k).at_eof = true) := by
  have hw0 := Optional.new_wf max_id w docs rv hdocs
  refine ⟨?_, ?_, ?_⟩
  · intro n h1 hn
    obtain ⟨hwn, hdocn, hmaxn⟩ :=
      (Optional.new max_id w (MockIterator.new docs rv)).afterReads_spec hw0 (n - 1)
        (by rw [Optional.new_doc_id, Optional.new_max]; omega)
    obtain ⟨-, -, r, hr, hrdoc⟩ :=
      ((Optional.new max_id w (MockIterator.new docs rv)).afterReads (n - 1)).read_spec hwn
        (by rw [hmaxn, hdocn, Optional.new_doc_id, Optional.new_max]; omega)
    refine ⟨r, hr, ?_⟩
    rw [hrdoc, hdocn, Optional.new_doc_id]
    omega
  · obtain ⟨-, hdocm, hmaxm⟩ :=
      (Optional.new max_id w (MockIterator.new docs rv)).afterReads_spec hw0 max_id
        (by rw [Optional.new_doc_id, Optional.new_max]; omega)
    rw [Optional.read_eof _ (by rw [hmaxm, hdocm, Optional.new_doc_id, Optional.new_max]; omega)]
  · intro k hk
    obtain ⟨-, hdocm, hmaxm⟩ :=
      (Optional.new max_id w (MockIterator.new docs rv)).afterReads_spec hw0 max_id
        (by rw [Optional.new_doc_id, Optional.new_max]; omega)
    have heq : (Optional.new max_id w (MockIterator.new docs rv)).afterReads k
        = (Optional.new max_id w (MockIterator.new docs rv)).afterReads max_id := by
      obtain ⟨d, rfl⟩ : ∃ d, k = max_id + d := ⟨k - max_id, by omega⟩
      rw [Optional.afterReads_add]
      exact Optional.afterReads_eof _
        (by rw [hmaxm, hdocm, Optional.new_doc_id, Optional.new_max]; omega) d
    rw [heq, Optional.at_eof_iff, hmaxm, hdocm, Optional.new_doc_id, Optional.new_max]
    omega

/-- Witness for C1 at the test suite instance: bound 100, weight 2, child
ids `{10, 20, 30, 50, 80}`; the 42nd read returns `doc_id = 42`. -/
theorem c1_read_ascending_gap_free_witness :
    docsSorted exampleChildDocs ∧ 1 ≤ 100 ∧
    (∃ r, (((Optional.new 100 2 (MockIterator.new exampleChildDocs .Ok)).afterReads (42 - 1)).read).2
        = some r ∧ r.doc_id = 42) :=
  ⟨by decide, by decide,
    (c1_read_ascending_gap_free exampleChildDocs .Ok 100 2 (by decide) (by decide)).1
      42 (by decide) (by decide)⟩

/-- C2: on the bound-100, weight-2 combinator over the `{10,20,30,50,80}`
child, the 100 reads return `weight = 2` exactly at the five child ids and
the virtual placeholder (`weight = 0`, `freq = 1`, full field mask) at
every other id; moreover no operation ever writes the constructor weight
into the combinator own (virtual) result record. -/
theorem c2_weight_only_on_real_hits :
    (∀ n ∈ List.range 100,
      ((exampleOptional.readAll 100)[n]?.join.map RSIndexResult.doc_id = some (n + 1)) ∧
      ((n + 1) ∈ exampleChildIds →
        (exampleOptional.readAll 100)[n]?.join.map RSIndexResult.weight = some 2) ∧
      ((n + 1) ∉ exampleChildIds →
        (exampleOptional.readAll 100)[n]?.join
          = some { doc_id := n + 1, weight := 0, freq := 1,
                   field_mask := RS_FIELDMASK_ALL, is_virtual := true })) ∧
    (∀ o : Optional, ((o.read).1).result.weight = o.result.weight) ∧
    (∀ (o : Optional) (t : Nat), ((o.skip_to t).1).result.weight = o.result.weight) := by
  refine ⟨?_, ?_, ?_⟩
  · simp only [c2_run]
    decide
  · intro o
    exact (o.read_frame).2.2.1
  · intro o t
    exact (o.skip_to_frame t).2.2.1

/-- Witness for C2 at two positions: id 10 (a real hit, weight 2) and
id 15 (a virtual hit). -/
theorem c2_weight_only_on_real_hits_witness :
    (9 ∈ List.range 100) ∧ (10 ∈ exampleChildIds) ∧ (15 ∉ exampleChildIds) ∧
    ((exampleOptional.readAll 100)[9]?.join.map RSIndexResult.weight = some 2) ∧
    ((exampleOptional.readAll 100)[14]?.join
      = some { doc_id := 15, weight := 0, freq := 1,
               field_mask := RS_FIELDMASK_ALL, is_virtual := true }) :=
  ⟨by decide, by decide, by decide,
    ((c2_weight_only_on_real_hits.1 9 (by decide)).2.1 (by decide)),
    ((c2_weight_only_on_real_hits.1 14 (by decide)).2.2 (by decide))⟩

theorem mem_doc_id_dropWhile (l : List RSIndexResult)
    (hp : l.Pairwise (fun a b => a.doc_id < b.doc_id)) (t : Nat) :
    t ∈ l.map RSIndexResult.doc_id ↔
      ∃ d rest, l.dropWhile (fun r => r.doc_id < t) = d :: rest ∧ d.doc_id = t := by
  induction l with
  | nil => simp
  | cons a l ih =>
    obtain ⟨hrel, hpl⟩ := List.pairwise_cons.mp hp
    rw [List.dropWhile_cons]
    by_cases hlt : a.doc_id < t
    · have hne : ¬ t = a.doc_id := by omega
      rw [if_pos (by simpa using hlt)]
      simp only [List.map_cons, List.mem_cons, hne, false_or]
      exact ih hpl
    · rw [if_neg (by simpa using hlt)]
      constructor
      · intro hmem
        rcases List.mem_cons.mp hmem with h | h
        · exact ⟨a, l, rfl, h.symm⟩
        · obtain ⟨d, hd, hdt⟩ := List.mem_map.mp h
          have := hrel d hd
          omega
      · rintro ⟨d, rest, hcons, hdt⟩
        injection hcons with e1 e2
        subst e1
        rw [List.map_cons, ← hdt]
        exact List.mem_cons_self _ _

/-- The virtual placeholder at 20 that the counterexample to C3 exhibits. -/
def c3Virtual20 : RSIndexResult :=
  { doc_id := 20, weight := 0, freq := 1, field_mask := RS_FIELDMASK_ALL, is_virtual := true }

/-- C3 counterexample: on the fresh `{10,20,30,50,80}` setup, after
`skip_to(15)` (which moves the child ahead, here onto its hit at 20),
`skip_to(20)` returns the VIRTUAL placeholder with weight 0 although the
child has a hit exactly at 20, refuting the claim that the result is the
weighted real child result exactly when the child has a hit at the
target. -/
theorem c3_counterexample :
    (((exampleOptional.skip_to 15).1).skip_to 20).2 = some (.Found c3Virtual20) ∧
    c3Virtual20.weight = 0 ∧ c3Virtual20.is_virtual = true ∧
    20 ∈ exampleChildIds ∧ exampleOptional.weight = 2 ∧
    ¬ ∃ r, (((exampleOptional.skip_to 15).1).skip_to 20).2 = some (.Found r) ∧
        r.weight = exampleOptional.weight := by
  refine ⟨by decide, by decide, by decide, by decide, by decide, ?_⟩
  rintro ⟨r, hr, hw2⟩
  rw [(by decide : (((exampleOptional.skip_to 15).1).skip_to 20).2
      = some (.Found c3Virtual20))] at hr
  obtain rfl : c3Virtual20 = r := by simpa using hr
  exact absurd hw2 (by decide)

/-- C3 (amended): for every target with last position < t <= bound,
`skip_to(t)` returns `Found` with `doc_id = t`, never `NotFound`; when `t`
is strictly beyond the child last position, the result is the weighted real
child result exactly when the child remaining stream has a hit at `t`,
else the virtual placeholder; when `t` is at or below the child last
position the result is the virtual placeholder even if the child holds a
real hit at `t`.  On the fresh test setup, `skip_to(20)` is real with
weight 2 and `skip_to(25)` is virtual with weight 0. -/
theorem c3_skip_to_exactness :
    (∀ (o : Optional) (t : Nat), o.result.doc_id < t → t ≤ o.max_doc_id →
      ∃ r, (o.skip_to t).2 = some (.Found r) ∧ r.doc_id = t) ∧
    (∀ (o : Optional) (c : MockIterator) (t : Nat), o.child = some c → c.Wf →
      o.result.doc_id < t → t ≤ o.max_doc_id → c.last_doc_id < t →
      ((∃ d, d ∈ c.remaining ∧ d.doc_id = t ∧
          (o.skip_to t).2 = some (.Found { d with weight := o.weight })) ∨
       (t ∉ c.remaining.map RSIndexResult.doc_id ∧
          (o.skip_to t).2 = some (.Found { o.result with doc_id := t })))) ∧
    (∀ (o : Optional) (c : MockIterator) (t : Nat), o.child = some c →
      o.result.doc_id < t → t ≤ o.max_doc_id → ¬ c.last_doc_id < t →
      (o.skip_to t).2 = some (.Found { o.result with doc_id := t })) ∧
    ((exampleOptional.skip_to 20).2
      = some (.Found { doc_id := 20, weight := 2, freq := 5,
                       field_mask := 3, is_virtual := false })) ∧
    ((exampleOptional.skip_to 25).2
      = some (.Found { doc_id := 25, weight := 0, freq := 1,
                       field_mask := RS_FIELDMASK_ALL, is_virtual := true })) := by
  refine ⟨?_, ?_, ?_, by decide, by decide⟩
  · intro o t hlt hle
    have hne2 : ¬ o.max_doc_id ≤ o.result.doc_id := by omega
    rcases hc : o.child with - | c
    · rw [o.skip_to_no_child t hc hle hne2]
      exact ⟨_, rfl, rfl⟩
    · by_cases hg : c.last_doc_id < t
      · rcases h2 : (c.skip_to t).2 with - | outcome
        · rw [o.skip_to_consult_miss t c hc hle hne2 hg (Or.inl h2)]
          exact ⟨_, rfl, rfl⟩
        · rcases outcome with r | r
          · have hrt := c.skip_to_found_doc t r h2
            rw [o.skip_to_consult_found t c r hc hle hne2 hg h2 hrt]
            exact ⟨_, rfl, hrt⟩
          · rw [o.skip_to_consult_miss t c hc hle hne2 hg (Or.inr ⟨r, h2⟩)]
            exact ⟨_, rfl, rfl⟩
      · rw [o.skip_to_no_consult t c hc hle hne2 hg]
        exact ⟨_, rfl, rfl⟩
  · intro o c t hc hcwf hlt hle hg
    have hne2 : ¬ o.max_doc_id ≤ o.result.doc_id := by omega
    rcases hd : c.remaining.dropWhile (fun r => r.doc_id < t) with - | ⟨a, rest⟩
    · refine Or.inr ⟨?_, ?_⟩
      · rw [mem_doc_id_dropWhile c.remaining hcwf.2.1 t]
        rintro ⟨d, rest2, hcons, -⟩
        rw [hd] at hcons
        exact absurd hcons (by simp)
      · have h2 : (c.skip_to t).2 = none := by rw [c.skip_to_nil t hd]
        rw [o.skip_to_consult_miss t c hc hle hne2 hg (Or.inl h2)]
    · by_cases hat : a.doc_id = t
      · have h2 : (c.skip_to t).2 = some (.Found a) := by
          rw [c.skip_to_cons t a rest hd, if_pos hat]
        refine Or.inl ⟨a, ?_, hat, ?_⟩
        · exact List.Sublist.subset (List.dropWhile_sublist _)
            (by rw [hd]; exact List.mem_cons_self a rest)
        · rw [o.skip_to_consult_found t c a hc hle hne2 hg h2 hat]
      · refine Or.inr ⟨?_, ?_⟩
        · rw [mem_doc_id_dropWhile c.remaining hcwf.2.1 t]
          rintro ⟨d, rest2, hcons, hdt⟩
          rw [hd] at hcons
          injection hcons with e1 e2
          subst e1
          exact hat hdt
        · have h2 : (c.skip_to t).2 = some (.NotFound a) := by
            rw [c.skip_to_cons t a rest hd, if_neg hat]
          rw [o.skip_to_consult_miss t c hc hle hne2 hg (Or.inr ⟨a, h2⟩)]
  · intro o c t hc hlt hle hg
    have hne2 : ¬ o.max_doc_id ≤ o.result.doc_id := by omega
    rw [o.skip_to_no_consult t c hc hle hne2 hg]

/-- Witness for the amended C3 at target 37 on the test setup. -/
theorem c3_skip_to_exactness_witness :
    exampleOptional.result.doc_id < 37 ∧ 37 ≤ exampleOptional.max_doc_id ∧
    (∃ r, (exampleOptional.skip_to 37).2 = some (.Found r) ∧ r.doc_id = 37) :=
  ⟨by decide, by decide,
    c3_skip_to_exactness.1 exampleOptional 37 (by decide) (by decide)⟩

/-- C4: the position never exceeds the bound: it holds after construction
and is preserved by `read`, `skip_to`, `revalidate` and `rewind`;
`at_eof` holds exactly when the position has reached the bound, and once
there `read` and `skip_to` are no-ops returning the EOF signal. -/
theorem c4_position_invariant :
    (∀ (max_id : Nat) (w : Rat) (c : MockIterator),
      (Optional.new max_id w c).result.doc_id ≤ max_id) ∧
    (∀ o : Optional, o.result.doc_id ≤ o.max_doc_id →
      ((o.read).1.result.doc_id ≤ (o.read).1.max_doc_id ∧
       (∀ t, ((o.skip_to t).1).result.doc_id ≤ ((o.skip_to t).1).max_doc_id) ∧
       ((o.revalidate).1.result.doc_id ≤ (o.revalidate).1.max_doc_id) ∧
       ((o.rewind).result.doc_id ≤ (o.rewind).max_doc_id))) ∧
    (∀ o : Optional, o.at_eof = true ↔ o.max_doc_id ≤ o.result.doc_id) ∧
    (∀ o : Optional, o.result.doc_id = o.max_doc_id →
      (o.read = (o, none) ∧ ∀ t, o.result.doc_id < t → o.skip_to t = (o, none))) := by
  refine ⟨?_, ?_, ?_, ?_⟩
  · intro max_id w c
    exact Nat.zero_le _
  · intro o h
    exact ⟨o.read_doc_le h, fun t => o.skip_to_doc_le t h, o.revalidate_doc_le h, Nat.zero_le _⟩
  · intro o
    exact o.at_eof_iff
  · intro o h
    refine ⟨o.read_eof (by omega), ?_⟩
    intro t ht
    rw [o.skip_to_pin t (Or.inr (by omega)), o.pin_eta h]

/-- Witness for C4 at the test setup. -/
theorem c4_position_invariant_witness :
    exampleOptional.result.doc_id ≤ exampleOptional.max_doc_id ∧
    (exampleOptional.read).1.result.doc_id ≤ (exampleOptional.read).1.max_doc_id :=
  ⟨by decide, (c4_position_invariant.2.1 exampleOptional (by decide)).1⟩

/-- C5: skipping past the bound (or skipping while at EOF) pins the
position to the bound, makes `at_eof` true, and returns nothing; once at
EOF every further `read` and every `skip_to` with a target at or beyond
the bound returns nothing and leaves the state unchanged. -/
theorem c5_eof_pinning_idempotent :
    (∀ (o : Optional) (t : Nat), o.max_doc_id < t ∨ o.at_eof = true →
      ((o.skip_to t).2 = none ∧ ((o.skip_to t).1).last_doc_id = o.max_doc_id ∧
       ((o.skip_to t).1).at_eof = true)) ∧
    (∀ o : Optional, o.at_eof = true → o.result.doc_id ≤ o.max_doc_id →
      (o.read = (o, none) ∧ ∀ t, o.max_doc_id ≤ t → o.skip_to t = (o, none))) := by
  refine ⟨?_, ?_⟩
  · intro o t h
    have h2 : o.max_doc_id < t ∨ o.max_doc_id ≤ o.result.doc_id := h.imp id o.at_eof_iff.mp
    rw [o.skip_to_pin t h2]
    exact ⟨rfl, rfl, (Optional.at_eof_iff _).mpr (Nat.le_refl _)⟩
  · intro o heof hle
    have heq : o.result.doc_id = o.max_doc_id := by
      have := o.at_eof_iff.mp heof
      omega
    refine ⟨o.read_eof (by omega), ?_⟩
    intro t ht
    rw [o.skip_to_pin t (Or.inr (by omega)), o.pin_eta heq]

/-- Witness for C5: skipping to 101 on the bound-100 setup. -/
theorem c5_eof_pinning_idempotent_witness :
    (exampleOptional.max_doc_id < 101 ∨ exampleOptional.at_eof = true) ∧
    ((exampleOptional.skip_to 101).2 = none ∧
     ((exampleOptional.skip_to 101).1).last_doc_id = exampleOptional.max_doc_id ∧
     ((exampleOptional.skip_to 101).1).at_eof = true) :=
  ⟨Or.inl (by decide), c5_eof_pinning_idempotent.1 exampleOptional 101 (Or.inl (by decide))⟩

/-- C6: on a well-formed combinator with a positive bound, `rewind` resets
the position to 0, lifts EOF, clears the shelf, rewinds the child, and the
next `read` returns `doc_id = 1`. -/
theorem c6_rewind_resets (o : Optional) (hw : o.Wf) (hmax : 1 ≤ o.max_doc_id) :
    (o.rewind).last_doc_id = 0 ∧ (o.rewind).at_eof = false ∧
    (o.rewind).child_result_shelved = none ∧
    (o.rewind).child = o.child.map MockIterator.rewind ∧
    ∃ r, ((o.rewind).read).2 = some r ∧ r.doc_id = 1 := by
  refine ⟨rfl, ?_, rfl, rfl, ?_⟩
  · exact decide_eq_false (by show ¬ o.max_doc_id ≤ 0; omega)
  · obtain ⟨-, -, r, hr, hd⟩ := (o.rewind).read_spec (o.rewind_wf hw)
      (by show ¬ o.max_doc_id ≤ 0; omega)
    refine ⟨r, hr, ?_⟩
    rw [hd]
    show 0 + 1 = 1
    rfl

/-- Witness for C6 after a `skip_to(42)` on the test setup. -/
theorem c6_rewind_resets_witness :
    ((exampleOptional.skip_to 42).1).Wf ∧ 1 ≤ ((exampleOptional.skip_to 42).1).max_doc_id ∧
    (((exampleOptional.skip_to 42).1).rewind.last_doc_id = 0 ∧
     ((exampleOptional.skip_to 42).1).rewind.at_eof = false ∧
     ((exampleOptional.skip_to 42).1).rewind.child_result_shelved = none ∧
     ((exampleOptional.skip_to 42).1).rewind.child
        = ((exampleOptional.skip_to 42).1).child.map MockIterator.rewind ∧
     ∃ r, (((exampleOptional.skip_to 42).1).rewind.read).2 = some r ∧ r.doc_id = 1) :=
  have hw : ((exampleOptional.skip_to 42).1).Wf :=
    Optional.skip_to_wf exampleOptional 42
      (Optional.new_wf 100 2 exampleChildDocs .Ok (by decide))
  ⟨hw, by decide, c6_rewind_resets _ hw (by decide)⟩

theorem Optional.afterReads_childless (o : Optional) (hc : o.child = none)
    (hwt : o.result.weight = 0) (k : Nat) :
    (o.afterReads k).child = none ∧ (o.afterReads k).result.weight = 0 := by
  induction k with
  | zero => exact ⟨hc, hwt⟩
  | succ k ih =>
    obtain ⟨ihc, ihw⟩ := ih
    constructor
    · show ((o.afterReads k).read).1.child = none
      by_cases hne : (o.afterReads k).max_doc_id ≤ (o.afterReads k).result.doc_id
      · rw [Optional.read_eof _ hne]
        exact ihc
      · rw [Optional.read_no_child _ ihc hne]
    · show ((o.afterReads k).read).1.result.weight = 0
      rw [((o.afterReads k).read_frame).2.2.1]
      exact ihw

/-- C7: a child abort degrades but never fails and is never surfaced:
when the child revalidate reports `Aborted`, the combinator drops the
child permanently, answers `Ok` when the current position was virtual and
`Moved` with a freshly read virtual result when it had been child-backed;
`revalidate` never returns `Aborted`; and once the child is gone every
further read yields only weight-0 (virtual) results. -/
theorem c7_abort_degrades :
    (∀ (o : Optional) (c : MockIterator), o.child = some c → c.reval = .Abort →
      ((o.revalidate).1).child = none) ∧
    (∀ (o : Optional) (c : MockIterator), o.child = some c → c.reval = .Abort →
      c.last_doc_id ≠ o.result.doc_id → o.revalidate = ({ o with child := none }, .Ok)) ∧
    (∀ (o : Optional) (c : MockIterator), o.child = some c → c.reval = .Abort →
      c.last_doc_id = o.result.doc_id → ¬ o.max_doc_id ≤ o.result.doc_id →
      o.result.weight = 0 →
      ∃ r, (o.revalidate).2 = .Moved (some r) ∧ r.doc_id = o.result.doc_id + 1 ∧
        r.weight = 0 ∧ r.is_virtual = o.result.is_virtual ∧
        ((o.revalidate).1).child = none) ∧
    (∀ o : Optional, (o.revalidate).2 ≠ .Aborted) ∧
    (∀ o : Optional, o.child = none → o.result.weight = 0 →
      ∀ k r, ((o.afterReads k).read).2 = some r → r.weight = 0) := by
  refine ⟨?_, ?_, ?_, Optional.revalidate_ne_aborted, ?_⟩
  · intro o c hc hrv
    by_cases heq : c.last_doc_id = o.result.doc_id
    · rw [o.revalidate_abort_real c hc hrv heq]
      by_cases hne : o.max_doc_id ≤ o.result.doc_id
      · rw [Optional.read_eof ({ o with child := none } : Optional) hne]
      · rw [Optional.read_no_child ({ o with child := none } : Optional) rfl hne]
    · rw [o.revalidate_abort_virtual c hc hrv heq]
  · intro o c hc hrv hneq
    exact o.revalidate_abort_virtual c hc hrv hneq
  · intro o c hc hrv heq hne hwt
    rw [o.revalidate_abort_real c hc hrv heq,
      Optional.read_no_child ({ o with child := none } : Optional) rfl hne]
    exact ⟨_, rfl, rfl, hwt, rfl, rfl⟩
  · intro o hc hwt k r hr
    obtain ⟨hkc, hkw⟩ := o.afterReads_childless hc hwt k
    by_cases hne : (o.afterReads k).max_doc_id ≤ (o.afterReads k).result.doc_id
    · rw [Optional.read_eof _ hne] at hr
      exact absurd hr (by simp)
    · rw [Optional.read_no_child _ hkc hne] at hr
      obtain rfl : ({ (o.afterReads k).result with doc_id := (o.afterReads k).result.doc_id + 1 }
          : RSIndexResult) = r := by simpa using hr
      exact hkw

/-- The combinator state after one read on an abort-configured child. -/
def c7Optional : Optional :=
  ((Optional.new 100 2 (MockIterator.new exampleChildDocs .Abort)).read).1

/-- Witness for C7: after one read (a virtual position, the child being
shelved ahead at 10), an aborting revalidate returns `Ok` and drops the
child. -/
theorem c7_abort_degrades_witness :
    c7Optional.child = some ((MockIterator.new exampleChildDocs .Abort).read).1 ∧
    ((MockIterator.new exampleChildDocs .Abort).read).1.reval = .Abort ∧
    ((MockIterator.new exampleChildDocs .Abort).read).1.last_doc_id ≠ c7Optional.result.doc_id ∧
    c7Optional.revalidate = ({ c7Optional with child := none }, .Ok) :=
  ⟨by decide, by decide, by decide,
    c7_abort_degrades.2.1 c7Optional ((MockIterator.new exampleChildDocs .Abort).read).1
      (by decide) (by decide) (by decide)⟩

/-- C8: `current` (a pure observer in this embedding, as the source body
performs no state write) returns the child result exactly when the child
last position equals the combinator position, the virtual placeholder
otherwise, and nothing on a freshly constructed cursor that was never
positioned. -/
theorem c8_current_observer :
    (∀ (o : Optional) (c : MockIterator), o.child = some c →
      c.last_doc_id = o.result.doc_id → o.current = c.current) ∧
    (∀ (o : Optional) (c : MockIterator), o.child = some c →
      ¬ c.last_doc_id = o.result.doc_id → o.current = some o.result) ∧
    (∀ o : Optional, o.child = none → o.current = some o.result) ∧
    (∀ (max_id : Nat) (w : Rat) (docs : List RSIndexResult) (rv : MockRevalidateResult),
      (Optional.new max_id w (MockIterator.new docs rv)).current = none) := by
  refine ⟨?_, ?_, ?_, ?_⟩
  · intro o c hc heq
    unfold Optional.current
    rw [hc]
    exact if_pos heq
  · intro o c hc hneq
    unfold Optional.current
    rw [hc]
    exact if_neg hneq
  · intro o hc
    unfold Optional.current
    rw [hc]
  · intro max_id w docs rv
    rfl

/-- Witness for C8: after `skip_to(20)` lands on a real hit, `current`
delegates to the child; a fresh cursor has no current result. -/
theorem c8_current_observer_witness :
    ((exampleOptional.skip_to 20).1).child
      = some (((MockIterator.new exampleChildDocs .Ok).skip_to 20).1.set_result_weight 2) ∧
    (((MockIterator.new exampleChildDocs .Ok).skip_to 20).1.set_result_weight 2).last_doc_id
      = ((exampleOptional.skip_to 20).1).result.doc_id ∧
    ((exampleOptional.skip_to 20).1).current
      = (((MockIterator.new exampleChildDocs .Ok).skip_to 20).1.set_result_weight 2).current ∧
    exampleOptional.current = none :=
  ⟨by decide, by decide,
    c8_current_observer.1 ((exampleOptional.skip_to 20).1)
      (((MockIterator.new exampleChildDocs .Ok).skip_to 20).1.set_result_weight 2)
      (by decide) (by decide),
    c8_current_observer.2.2.2 100 2 exampleChildDocs .Ok⟩

/-- C9: `skip_to` never modifies the shelf; when a demoting read has
shelved a child result at id `s` (child last position `s`, combinator
position below `s`), `skip_to(s)` does not consult the child and returns
the virtual placeholder at `s` with weight 0 even though the child holds a
real hit exactly at `s`, and `current` right after returns the child
result unchanged, with the constructor weight never applied to it. -/
theorem c9_shelved_target_stays_virtual :
    (∀ (o : Optional) (t : Nat),
      ((o.skip_to t).1).child_result_shelved = o.child_result_shelved) ∧
    (∀ (o : Optional) (c : MockIterator) (s : Nat), o.child = some c →
      o.child_result_shelved = some s → c.last_doc_id = s → o.result.doc_id < s →
      s ≤ o.max_doc_id → o.result.weight = 0 →
      ((o.skip_to s).2 = some (.Found { o.result with doc_id := s }) ∧
       ({ o.result with doc_id := s } : RSIndexResult).weight = 0 ∧
       ({ o.result with doc_id := s } : RSIndexResult).is_virtual = o.result.is_virtual ∧
       ((o.skip_to s).1).child = some c ∧
       ((o.skip_to s).1).child_result_shelved = some s ∧
       ((o.skip_to s).1).current = some c.result)) := by
  refine ⟨Optional.skip_to_shelf, ?_⟩
  intro o c s hc hshelf hlast hlt hle hwt
  have hne2 : ¬ o.max_doc_id ≤ o.result.doc_id := by omega
  have hg : ¬ c.last_doc_id < s := by omega
  rw [o.skip_to_no_consult s c hc hle hne2 hg]
  refine ⟨rfl, hwt, rfl, hc, hshelf, ?_⟩
  have hcur : c.current = some c.result := by
    unfold MockIterator.current
    rw [if_neg (by unfold MockIterator.last_doc_id at hlast; omega)]
  unfold Optional.current
  rw [show ({ o with result := { o.result with doc_id := s } } : Optional).child
      = o.child from rfl, hc]
  exact (if_pos (hlast : c.last_doc_id = s)).trans hcur

def c9Docs : List RSIndexResult :=
  [{ doc_id := 3, weight := 7, freq := 5, field_mask := 3, is_virtual := false }]

/-- The combinator state after one demoting read: position 1, the child
result shelved at 3. -/
def c9Optional : Optional := ((Optional.new 5 2 (MockIterator.new c9Docs .Ok)).read).1

def c9Child : MockIterator := ((MockIterator.new c9Docs .Ok).read).1

/-- Witness for C9 at the shelved state: `skip_to(3)` returns the virtual
placeholder at 3 and `current` returns the child result with its original
weight 7, not the constructor weight 2. -/
theorem c9_shelved_target_stays_virtual_witness :
    c9Optional.child = some c9Child ∧ c9Optional.child_result_shelved = some 3 ∧
    c9Child.last_doc_id = 3 ∧ c9Optional.result.doc_id < 3 ∧
    3 ≤ c9Optional.max_doc_id ∧ c9Optional.result.weight = 0 ∧
    ((c9Optional.skip_to 3).2 = some (.Found { c9Optional.result with doc_id := 3 }) ∧
     ({ c9Optional.result with doc_id := 3 } : RSIndexResult).weight = 0 ∧
     ({ c9Optional.result with doc_id := 3 } : RSIndexResult).is_virtual
        = c9Optional.result.is_virtual ∧
     ((c9Optional.skip_to 3).1).child = some c9Child ∧
     ((c9Optional.skip_to 3).1).child_result_shelved = some 3 ∧
     ((c9Optional.skip_to 3).1).current = some c9Child.result) :=
  ⟨by decide, by decide, by decide, by decide, by decide, by decide,
    c9_shelved_target_stays_virtual.2 c9Optional c9Child 3
      (by decide) (by decide) (by decide) (by decide) (by decide) (by decide)⟩

/-- C10: with bound 0 the combinator is at EOF immediately after
construction, every read returns nothing without changing state, and
`rewind` does not lift the EOF condition, so such an iterator never
produces a result. -/
theorem c10_zero_bound_never_produces :
    (∀ (w : Rat) (c : MockIterator), (Optional.new 0 w c).at_eof = true) ∧
    (∀ o : Optional, o.max_doc_id = 0 →
      (o.at_eof = true ∧ o.read = (o, none) ∧
       (o.rewind).last_doc_id = 0 ∧ (o.rewind).at_eof = true ∧
       ∀ k, ((o.afterReads k).read).2 = none)) := by
  refine ⟨?_, ?_⟩
  · intro w c
    rfl
  · intro o h
    have h0 : o.max_doc_id ≤ o.result.doc_id := by omega
    refine ⟨o.at_eof_iff.mpr h0, o.read_eof h0, rfl, ?_, ?_⟩
    · exact (Optional.at_eof_iff _).mpr (by show o.max_doc_id ≤ 0; omega)
    · intro k
      rw [o.afterReads_eof h0 k, o.read_eof h0]

/-- Witness for C10 on a bound-0 combinator over an empty child. -/
theorem c10_zero_bound_never_produces_witness :
    (Optional.new 0 2 (MockIterator.new [] MockRevalidateResult.Ok)).max_doc_id = 0 ∧
    (Optional.new 0 2 (MockIterator.new [] MockRevalidateResult.Ok)).read
      = (Optional.new 0 2 (MockIterator.new [] MockRevalidateResult.Ok), none) :=
  ⟨rfl, (c10_zero_bound_never_produces.2 _ rfl).2.1⟩
